import Mathlib

/-
Verification of the object-lifetime and concurrency substrate:
weak-reference registry (Objects/weakrefobject.c), ownership and trashcan
machinery (Objects/object.c), and thread/interpreter state plus
cross-interpreter data (Python/pystate.c), shallowly embedded in Lean.
-/

set_option linter.all false

/-! Section: weak reference registry (Objects/weakrefobject.c, default build) -/

/-- Error values raised or fatally reported by the embedded C functions. -/
inductive CErr where
  | typeError
  | overflowError
  | badInternalCall
  | fatalStillCurrent
  | fatalNoThreadState
  | fatalNotCurrentWhenReleasing
  | fatalRemainingThreads
  | fatalNullInterpreter
  | fatalRemainingSubinterpreters
  | systemErrorInterpDestroyed
deriving DecidableEq, Repr

/-- The dynamic type of a weak-reference node: exactly the base ref type,
a proxy type, or a subclass of one of them. -/
inductive WKind where
  | refExact
  | proxyKind
  | subclassKind
deriving DecidableEq, Repr

/-- One node of the doubly-linked weak-reference list of a referent.
The intrusive prev and next links are represented by the position of the
node in a Lean list; wr_object is true while the node still points at the
referent and false once it has been cleared to the none sentinel;
wr_callback holds the id of the optional callback object; refcnt is the
reference count of the weak-reference node itself. -/
structure WRef where
  id : Nat
  kind : WKind
  wr_object : Bool
  wr_callback : Option Nat
  refcnt : Nat
deriving DecidableEq, Repr

/-- PyWeakref_CheckRefExact: the node has exactly the base reference type. -/
def PyWeakref_CheckRefExact (w : WRef) : Bool :=
  match w.kind with
  | WKind.refExact => true
  | _ => false

/-- PyWeakref_CheckProxy: the node has one of the two proxy types. -/
def PyWeakref_CheckProxy (w : WRef) : Bool :=
  match w.kind with
  | WKind.proxyKind => true
  | _ => false

/-- get_basic_refs: extract the two callback-less refs (ref and proxy) from
the head of the list, being careful not to pick up subclasses. -/
def get_basic_refs (l : List WRef) : Option WRef × Option WRef :=
  match l with
  | [] => (none, none)
  | head :: rest =>
    if head.wr_callback = none then
      if PyWeakref_CheckRefExact head then
        match rest with
        | [] => (some head, none)
        | head2 :: _ =>
          if head2.wr_callback = none ∧ PyWeakref_CheckProxy head2 then
            (some head, some head2)
          else (some head, none)
      else if PyWeakref_CheckProxy head then (none, some head)
      else (none, none)
    else (none, none)

/-- insert_head: insert the new node at the head of the list. -/
def insert_head (newref : WRef) (list : List WRef) : List WRef :=
  newref :: list

/-- insert_after: insert the new node in the list right after the node whose
id is prevId. -/
def insert_after (newref : WRef) (prevId : Nat) : List WRef → List WRef
  | [] => [newref]
  | w :: rest =>
    if w.id = prevId then w :: newref :: rest
    else w :: insert_after newref prevId rest

/-- init_weakref: a freshly initialised weak-reference node of the base
reference type, pointing at the referent, holding the given callback. -/
def init_weakref (id : Nat) (callback : Option Nat) : WRef :=
  { id := id, kind := WKind.refExact, wr_object := true,
    wr_callback := callback, refcnt := 1 }

/-- The callback argument of PyWeakref_NewRef: the C NULL pointer, the
Py_None singleton, or a callable with an id. -/
inductive CBArg where
  | null
  | pyNone
  | fn (cb : Nat)
deriving DecidableEq, Repr

/-- The callback after the normalisation performed by PyWeakref_NewRef:
Py_None is treated the same as NULL. -/
def cbNormalize (c : CBArg) : Option Nat :=
  match c with
  | CBArg.null => none
  | CBArg.pyNone => none
  | CBArg.fn cb => some cb

/-- Replace the node with the given id by n (used to reflect the in-place
incref of a shared node inside the list). -/
def replaceById (l : List WRef) (i : Nat) (n : WRef) : List WRef :=
  l.map (fun w => if w.id = i then n else w)

/-- PyWeakref_NewRef: create (or reuse) a weak reference to an object.
The object is represented by whether its type supports weak references and
by its current weak list; freshId is the address of the node that
new_weakref would allocate.  Returns the strong-owned result node and the
updated weak list. -/
def PyWeakref_NewRef (supports : Bool) (weaklist : List WRef) (callback : CBArg)
    (freshId : Nat) : Except CErr (WRef × List WRef) :=
  if supports = false then Except.error CErr.typeError
  else
    let rp := get_basic_refs weaklist
    let callback2 := cbNormalize callback
    let result : Option WRef := if callback2 = none then rp.1 else none
    match result with
    | some r =>
      let r2 := { r with refcnt := r.refcnt + 1 }
      Except.ok (r2, replaceById weaklist r.id r2)
    | none =>
      let self := init_weakref freshId callback2
      if callback2 = none then Except.ok (self, insert_head self weaklist)
      else
        let prev := match rp.2 with
          | some p => some p
          | none => rp.1
        match prev with
        | none => Except.ok (self, insert_head self weaklist)
        | some p => Except.ok (self, insert_after self p.id weaklist)

/-- clear_weakref: clear the passed-in reference, remove it from the weak
list of the referent (the caller drops it from the Lean list), and clear
the callback slot. -/
def clear_weakref (w : WRef) : WRef :=
  { w with wr_object := false, wr_callback := none }

/-- The dereference operation of a weak reference: some referent while the
node still points at it, none (reported as gone) once cleared. -/
def _PyWeakref_GET_REF (w : WRef) : Option Unit :=
  if w.wr_object then some () else none

/-- _PyWeakref_GetWeakrefCount: length of the weak list from a head. -/
def _PyWeakref_GetWeakrefCount : List WRef → Nat
  | [] => 0
  | _ :: rest => 1 + _PyWeakref_GetWeakrefCount rest

/-- Observable events of PyObject_ClearWeakRefs: a node is unlinked from
the weak list (its referent pointer set to none), a callback is invoked,
or a callback error is reported through the unraisable channel. -/
inductive WEvent where
  | unlink (id : Nat)
  | invoke (cb : Nat)
  | unraisable (cb : Nat)
deriving DecidableEq, Repr

/-- handle_callback: call the callback with the weak reference; if the call
raises, report the error through PyErr_WriteUnraisable, which swallows it. -/
def handle_callback (raises : Nat → Bool) (cb : Nat) : List WEvent :=
  if raises cb then [WEvent.invoke cb, WEvent.unraisable cb]
  else [WEvent.invoke cb]

/-- The first phase of PyObject_ClearWeakRefs: remove the (at most two)
callback-less basic and proxy references at the head of the list.  Returns
the cleared nodes in order and the remaining list. -/
def clear_basic_refs : List WRef → List WRef × List WRef
  | [] => ([], [])
  | w :: rest =>
    if w.wr_callback = none then
      match rest with
      | [] => ([clear_weakref w], [])
      | w2 :: rest2 =>
        if w2.wr_callback = none then
          ([clear_weakref w, clear_weakref w2], rest2)
        else ([clear_weakref w], w2 :: rest2)
    else ([], w :: rest)

/-- The second loop of the count-greater-than-one branch: walk the tuple of
saved (weakref, callback) pairs and invoke each present callback. -/
def invoke_callbacks (raises : Nat → Bool) : List (Option (Nat × Option Nat)) → List WEvent
  | [] => []
  | some (_, some cb) :: rest => handle_callback raises cb ++ invoke_callbacks raises rest
  | some (_, none) :: rest => invoke_callbacks raises rest
  | none :: rest => invoke_callbacks raises rest

/-- PyObject_ClearWeakRefs, default (single-serialization-point) build.
The referent is represented by whether its type supports weak references,
its reference count at the call, and its weak list; raises gives the
behaviour of each user callback and err is the ambient pending exception.
Returns the cleared nodes in unlink order, the final weak list of the
referent, the trace of events, and the pending exception on exit. -/
def PyObject_ClearWeakRefs (supports : Bool) (refcnt : Nat) (raises : Nat → Bool)
    (err : Option CErr) (wl : List WRef) :
    List WRef × List WRef × List WEvent × Option CErr :=
  if supports = false ∨ refcnt ≠ 0 then
    ([], wl, [], some CErr.badInternalCall)
  else
    let pa := clear_basic_refs wl
    let unlinksA := pa.1.map (fun w => WEvent.unlink w.id)
    match pa.2 with
    | [] => (pa.1, [], unlinksA, err)
    | current :: others =>
      let exc := err
      match others with
      | [] =>
        let callback := current.wr_callback
        let cur := clear_weakref { current with wr_callback := none }
        let cbEvents :=
          match callback with
          | none => []
          | some cb => if 0 < current.refcnt then handle_callback raises cb else []
        (pa.1 ++ [cur], [], unlinksA ++ [WEvent.unlink cur.id] ++ cbEvents, exc)
      | _ :: _ =>
        let rest := current :: others
        let tuple := rest.map (fun w =>
          if 0 < w.refcnt then some (w.id, w.wr_callback) else none)
        let cleared := rest.map (fun w => clear_weakref { w with wr_callback := none })
        let unlinksB := rest.map (fun w => WEvent.unlink w.id)
        let cbEvents := invoke_callbacks raises tuple
        (pa.1 ++ cleared, [], unlinksA ++ unlinksB ++ cbEvents, exc)

/-! Section: ownership machinery (Objects/object.c) -/

/-- Low two bits of ob_ref_shared: count of shared-field bits. -/
def _Py_REF_SHARED_SHIFT : Nat := 2

/-- Modelled from the spec: the two-bit state stored in the low bits of the
shared counter (normal, maybe weakly referenced, merge-queued, merged); the
internal header defining these constant values is not among the sources,
so the encoding is taken from the spec description of the split counter,
consistently with every use the source makes of it. -/
def _Py_REF_MAYBE_WEAKREF : Int := 1

/-- Modelled from the spec: the merge-queued state of the shared counter. -/
def _Py_REF_QUEUED : Int := 2

/-- Modelled from the spec: the merged state of the shared counter; the
value _Py_REF_MERGED alone means merged with count zero. -/
def _Py_REF_MERGED : Int := 3

/-- Modelled from the spec: mask of the two flag bits of the shared field. -/
def _Py_REF_SHARED_FLAG_MASK : Int := 3

/-- The split reference-count header of an object in the free-threaded
build: the biased local count (owning thread only), the shared count with
its two flag bits, and the owning thread id. -/
structure PyObjectShared where
  ob_ref_local : Nat
  ob_ref_shared : Int
  ob_tid : Nat
deriving DecidableEq, Repr

/-- _Py_DecRefSharedDebug seen sequentially (the compare-exchange loop has
no interference, so a single iteration commits).  Returns the updated
object header, whether the object was queued for the owning thread to
merge, and whether the object was deallocated by this path. -/
def _Py_DecRefShared (o : PyObjectShared) : PyObjectShared × Bool × Bool :=
  if o.ob_ref_shared = 0 ∨ o.ob_ref_shared = _Py_REF_MAYBE_WEAKREF then
    ({ o with ob_ref_shared := _Py_REF_QUEUED }, true, false)
  else
    let new_shared := o.ob_ref_shared - 2 ^ _Py_REF_SHARED_SHIFT
    ({ o with ob_ref_shared := new_shared }, false,
     decide (new_shared = _Py_REF_MERGED))

/-- _Py_MergeZeroLocalRefcount: the owning thread merges a zero local count
into the shared field.  The expression shared - shared % 4 + merged is the
two-complement form of masking out the flag bits and setting them to
merged.  Returns the updated header and whether the object was
deallocated. -/
def _Py_MergeZeroLocalRefcount (op : PyObjectShared) : PyObjectShared × Bool :=
  let op1 := { op with ob_tid := 0 }
  if op1.ob_ref_shared = 0 then (op1, true)
  else
    let shared := op1.ob_ref_shared
    let new_shared := shared - shared % (_Py_REF_SHARED_FLAG_MASK + 1) + _Py_REF_MERGED
    ({ op1 with ob_ref_shared := new_shared }, decide (new_shared = _Py_REF_MERGED))

/-- The trashcan nesting threshold. -/
def _PyTrash_UNWIND_LEVEL : Nat := 50

/-- The per-thread trashcan state: the nesting counter and the deferred
list, linked in the source through a reused header field of each deferred
object.  A deferred object is represented by the length of the reference
chain hanging from it. -/
structure Trashcan where
  delete_nesting : Nat
  delete_later : List Nat
deriving DecidableEq, Repr

/-- _PyTrash_thread_deposit_object: push the refcount-zero object onto the
deferred list of the thread. -/
def _PyTrash_thread_deposit_object (trash : Trashcan) (op : Nat) : Trashcan :=
  { trash with delete_later := op :: trash.delete_later }

/-- _PyTrash_begin: at or above the threshold, deposit the object and
report 1 (true) so the destructor body is skipped; otherwise bump the
nesting counter and report 0 (false). -/
def _PyTrash_begin (trash : Trashcan) (op : Nat) : Trashcan × Bool :=
  if _PyTrash_UNWIND_LEVEL ≤ trash.delete_nesting then
    (_PyTrash_thread_deposit_object trash op, true)
  else
    ({ trash with delete_nesting := trash.delete_nesting + 1 }, false)

/- Execution of the deallocation of a reference chain through the
trashcan, with explicit fuel (none means the fuel ran out, never reached
for sufficient fuel).  An object is the length of the chain hanging from
it.  Each function returns the trashcan state on exit, the maximal value
taken by the nesting counter, and the number of objects destroyed.
dealloc is a destructor wrapped in the trashcan guard calls: begin, then the
body (release the child chain, free self), then end.  end decrements the
nesting counter and drains the deferred list through
_PyTrash_thread_destroy_chain when nesting returns to zero;
destroy_loop is the while loop inside _PyTrash_thread_destroy_chain,
which calls each deferred destructor directly. -/
mutual

def dealloc : Nat → Nat → Trashcan → Option (Trashcan × Nat × Nat)
  | 0, _, _ => none
  | fuel + 1, op, trash =>
    match _PyTrash_begin trash op with
    | (t1, true) => some (t1, t1.delete_nesting, 0)
    | (t1, false) =>
      match (if op ≤ 1 then some (t1, 0, 0) else dealloc fuel (op - 1) t1) with
      | none => none
      | some (t2, m2, f2) =>
        match _PyTrash_end fuel t2 with
        | none => none
        | some (t3, m3, f3) =>
          some (t3, max t1.delete_nesting (max m2 m3), 1 + f2 + f3)

def _PyTrash_end : Nat → Trashcan → Option (Trashcan × Nat × Nat)
  | 0, _ => none
  | fuel + 1, trash =>
    let t := { trash with delete_nesting := trash.delete_nesting - 1 }
    if t.delete_nesting = 0 then
      if t.delete_later = [] then some (t, 0, 0)
      else _PyTrash_thread_destroy_chain fuel t
    else some (t, 0, 0)

def _PyTrash_thread_destroy_chain : Nat → Trashcan → Option (Trashcan × Nat × Nat)
  | 0, _ => none
  | fuel + 1, trash =>
    let t := { trash with delete_nesting := trash.delete_nesting + 1 }
    match destroy_loop fuel t with
    | none => none
    | some (t2, m, f) =>
      some ({ t2 with delete_nesting := t2.delete_nesting - 1 }, m, f)

def destroy_loop : Nat → Trashcan → Option (Trashcan × Nat × Nat)
  | 0, _ => none
  | fuel + 1, t =>
    match t.delete_later with
    | [] => some (t, t.delete_nesting, 0)
    | op :: rest =>
      match dealloc fuel op { t with delete_later := rest } with
      | none => none
      | some (t2, m2, f2) =>
        match destroy_loop fuel t2 with
        | none => none
        | some (t3, m3, f3) => some (t3, max m2 m3, f2 + f3)

end

/-! Section: thread and interpreter state (Python/pystate.c) -/

/-- A reference to a thread state: its id and the id of the interpreter it
belongs to for its entire lifetime. -/
structure TStateRef where
  id : Nat
  interp : Nat
deriving DecidableEq, Repr

/-- An interpreter state: its id and the linked list of its thread states
(head first), each represented by its id. -/
structure InterpSt where
  id : Nat
  threads_head : List Nat
deriving DecidableEq, Repr

/-- The runtime: the current-thread-state fast slot, the linked list of
interpreter ids, and the distinguished main interpreter. -/
structure RuntimeSt where
  tstate_current : Option TStateRef
  interp_head : List Nat
  interp_main : Option Nat
deriving DecidableEq, Repr

/-- Whether the thread state with the given id is published as the
current thread state of the runtime (the check of
tstate_verify_not_active). -/
def tstate_is_current (rt : RuntimeSt) (tid : Nat) : Bool :=
  match rt.tstate_current with
  | some ts => decide (ts.id = tid)
  | none => false

/-- PyThreadState_Delete: fatal when the state is still current (in which
case nothing is unlinked or freed), otherwise tstate_delete_common unlinks
the state from the thread list of its interpreter and frees it. -/
def PyThreadState_Delete (rt : RuntimeSt) (interp : InterpSt) (tid : Nat) :
    Except CErr InterpSt :=
  if tstate_is_current rt tid then Except.error CErr.fatalStillCurrent
  else Except.ok { interp with threads_head := interp.threads_head.erase tid }

/-- The while loop of zapthreads: each remaining thread state is checked
against the current slot (fatal if still current) and then deleted. -/
def zapthreads_loop (rt : RuntimeSt) : List Nat → Except CErr Unit
  | [] => Except.ok ()
  | tid :: rest =>
    if tstate_is_current rt tid then Except.error CErr.fatalStillCurrent
    else zapthreads_loop rt rest

/-- zapthreads: delete every remaining thread state of the interpreter,
leaving its thread list empty. -/
def zapthreads (rt : RuntimeSt) (interp : InterpSt) : Except CErr InterpSt :=
  match zapthreads_loop rt interp.threads_head with
  | Except.error e => Except.error e
  | Except.ok _ => Except.ok { interp with threads_head := [] }

/-- The part of PyInterpreterState_Delete after the current thread state
has been unset: zap the remaining thread states, locate the interpreter in
the runtime list (fatal if absent), fatal if threads remain, unlink it,
and check the main-interpreter condition. -/
def PyInterpreterState_Delete_body (rt1 : RuntimeSt) (interp : InterpSt) :
    Except CErr (RuntimeSt × InterpSt) :=
  match zapthreads rt1 interp with
  | Except.error e => Except.error e
  | Except.ok interp1 =>
    if interp.id ∈ rt1.interp_head then
      if interp1.threads_head ≠ [] then Except.error CErr.fatalRemainingThreads
      else
        let newHead := rt1.interp_head.erase interp.id
        if rt1.interp_main = some interp.id then
          if newHead ≠ [] then Except.error CErr.fatalRemainingSubinterpreters
          else Except.ok ({ rt1 with interp_head := newHead, interp_main := none },
                          interp1)
        else Except.ok ({ rt1 with interp_head := newHead }, interp1)
    else Except.error CErr.fatalNullInterpreter

/-- PyInterpreterState_Delete: unset the current thread state if it belongs
to this interpreter, then run the rest of the deletion. -/
def PyInterpreterState_Delete (rt : RuntimeSt) (interp : InterpSt) :
    Except CErr (RuntimeSt × InterpSt) :=
  let rt1 :=
    match rt.tstate_current with
    | some ts =>
      if ts.interp = interp.id then { rt with tstate_current := none } else rt
    | none => rt
  PyInterpreterState_Delete_body rt1 interp

/-! Section: the GILState ensure and release pair (Python/pystate.c) -/

/-- The value PyGILState_Ensure returns: whether the thread already held
the GIL at the call. -/
inductive PyGILState_STATE where
  | locked
  | unlocked
deriving DecidableEq, Repr

/-- The GILState view of one OS thread: the thread state stored in the
thread-specific slot, represented by its gilstate counter when present,
and whether that state currently holds the GIL (is current). -/
structure GILThread where
  tstate : Option Nat
  hasGil : Bool
deriving DecidableEq, Repr

/-- PyGILState_Ensure: create a thread state on first use (its counter
reset from one to zero, never current at birth), acquire the GIL when not
already held, and bump the gilstate counter.  Returns the state to hand
back to the matching release call. -/
def PyGILState_Ensure (s : GILThread) : GILThread × PyGILState_STATE :=
  match s.tstate with
  | none =>
    ({ tstate := some 1, hasGil := true }, PyGILState_STATE.unlocked)
  | some c =>
    if s.hasGil then ({ s with tstate := some (c + 1) }, PyGILState_STATE.locked)
    else ({ tstate := some (c + 1), hasGil := true }, PyGILState_STATE.unlocked)

/-- PyGILState_Release: fatal when the thread has no thread state or does
not hold the GIL; otherwise decrement the gilstate counter, and on zero
clear and delete the thread state (releasing the GIL), else release the
GIL when the matching ensure had to acquire it. -/
def PyGILState_Release (s : GILThread) (oldstate : PyGILState_STATE) :
    Except CErr GILThread :=
  match s.tstate with
  | none => Except.error CErr.fatalNoThreadState
  | some c =>
    if s.hasGil = false then Except.error CErr.fatalNotCurrentWhenReleasing
    else
      let c2 := c - 1
      if c2 = 0 then Except.ok { tstate := none, hasGil := false }
      else if oldstate = PyGILState_STATE.unlocked then
        Except.ok { tstate := some c2, hasGil := false }
      else Except.ok { tstate := some c2, hasGil := true }

/-- N consecutive PyGILState_Ensure calls, collecting the returned states
in call order. -/
def ensureN : Nat → GILThread → GILThread × List PyGILState_STATE
  | 0, s => (s, [])
  | n + 1, s =>
    let p := PyGILState_Ensure s
    let q := ensureN n p.1
    (q.1, p.2 :: q.2)

/-- A sequence of PyGILState_Release calls with the given saved states. -/
def releaseN : GILThread → List PyGILState_STATE → Except CErr GILThread
  | s, [] => Except.ok s
  | s, st :: rest =>
    match PyGILState_Release s st with
    | Except.error e => Except.error e
    | Except.ok s2 => releaseN s2 rest

/-! Section: cross-interpreter data (Python/pystate.c) -/

/-- The built-in payload kinds supported by the cross-interpreter data
registry: an integer, a byte buffer, an immutable text buffer (its
kind, storage buffer and length summarised by the code-point sequence),
and the none sentinel. -/
inductive XObj where
  | intV (z : Int)
  | bytesV (bs : List Nat)
  | strV (cs : List Nat)
  | noneV
deriving DecidableEq, Repr

/-- The untyped data field of a payload: the shared bytes struct, the shared
str struct, the integer value smuggled through the pointer, or NULL. -/
inductive XPayload where
  | bytesP (bs : List Nat)
  | strP (cs : List Nat)
  | longP (z : Int)
  | nullP
deriving DecidableEq, Repr

/-- The new_object function pointer stored in a payload. -/
inductive XNewObj where
  | newBytes
  | newStr
  | newLong
  | newNone
deriving DecidableEq, Repr

/-- A cross-interpreter data payload: the untyped data, the optional strong
reference to the exporting object, the id of the owning interpreter, the
reconstruction function, and whether a free function was recorded. -/
structure XIData where
  data : XPayload
  obj : Option XObj
  interp : Int
  new_object : XNewObj
  hasFree : Bool
deriving DecidableEq, Repr

/-- The bound on shareable integers: they must fit a signed size type. -/
def PY_SSIZE_T_MAX : Int := 2 ^ 63 - 1

/-- The lower bound on shareable integers. -/
def PY_SSIZE_T_MIN : Int := -(2 ^ 63)

/-- _bytes_shared: snapshot a bytes object (buffer pointer and length kept
alive through the strong obj reference, a free function recorded). -/
def _bytes_shared (interpId : Int) (bs : List Nat) (obj : XObj) : XIData :=
  { data := XPayload.bytesP bs, obj := some obj, interp := interpId,
    new_object := XNewObj.newBytes, hasFree := true }

/-- _str_shared: snapshot a str object (kind, buffer and length kept alive
through the strong obj reference, a free function recorded). -/
def _str_shared (interpId : Int) (cs : List Nat) (obj : XObj) : XIData :=
  { data := XPayload.strP cs, obj := some obj, interp := interpId,
    new_object := XNewObj.newStr, hasFree := true }

/-- _long_shared: the integer value is stored directly in the data pointer;
integers outside the signed size range raise an overflow error. -/
def _long_shared (interpId : Int) (z : Int) : Except CErr XIData :=
  if z < PY_SSIZE_T_MIN ∨ PY_SSIZE_T_MAX < z then Except.error CErr.overflowError
  else Except.ok { data := XPayload.longP z, obj := none, interp := interpId,
                   new_object := XNewObj.newLong, hasFree := false }

/-- _none_shared: data, obj and free all remain NULL. -/
def _none_shared (interpId : Int) : XIData :=
  { data := XPayload.nullP, obj := none, interp := interpId,
    new_object := XNewObj.newNone, hasFree := false }

/-- _PyObject_GetCrossInterpreterData: look the getdata function up by the
exact type of the object, build the payload, record the exporting
interpreter id, and validate it (a negative interpreter id is a system
error). -/
def _PyObject_GetCrossInterpreterData (interpId : Int) (obj : XObj) :
    Except CErr XIData :=
  let built :=
    match obj with
    | XObj.intV z => _long_shared interpId z
    | XObj.bytesV bs => Except.ok (_bytes_shared interpId bs obj)
    | XObj.strV cs => Except.ok (_str_shared interpId cs obj)
    | XObj.noneV => Except.ok (_none_shared interpId)
  match built with
  | Except.error e => Except.error e
  | Except.ok d =>
    if d.interp < 0 then Except.error CErr.systemErrorInterpDestroyed
    else Except.ok d

/-- _new_bytes_object: rebuild a fresh bytes object from the snapshot. -/
def _new_bytes_object (d : XIData) : Option XObj :=
  match d.data with
  | XPayload.bytesP bs => some (XObj.bytesV bs)
  | _ => none

/-- _new_str_object: rebuild a fresh str object from the snapshot. -/
def _new_str_object (d : XIData) : Option XObj :=
  match d.data with
  | XPayload.strP cs => some (XObj.strV cs)
  | _ => none

/-- _new_long_object: rebuild the integer from the data pointer. -/
def _new_long_object (d : XIData) : Option XObj :=
  match d.data with
  | XPayload.longP z => some (XObj.intV z)
  | _ => none

/-- _new_none_object: a new reference to the none singleton. -/
def _new_none_object (_ : XIData) : Option XObj :=
  some XObj.noneV

/-- _PyCrossInterpreterData_NewObject: call the stored reconstruction
function; safe from any interpreter. -/
def _PyCrossInterpreterData_NewObject (d : XIData) : Option XObj :=
  match d.new_object with
  | XNewObj.newBytes => _new_bytes_object d
  | XNewObj.newStr => _new_str_object d
  | XNewObj.newLong => _new_long_object d
  | XNewObj.newNone => _new_none_object d

/-- _PyCrossInterpreterData_Release: with no free function and no object
there is nothing to release; otherwise the owning interpreter is looked up
by id (an error if it was already destroyed) and the clear runs in the
owning interpreter, with _call_in_interpreter temporarily swapping the
current thread state when the caller is a different interpreter. -/
def _PyCrossInterpreterData_Release (liveInterps : List Int) (callerInterp : Int)
    (d : XIData) : Except CErr XIData :=
  if d.hasFree = false ∧ d.obj = none then
    Except.ok { d with data := XPayload.nullP }
  else if d.interp ∈ liveInterps then
    Except.ok { d with data := XPayload.nullP, obj := none }
  else Except.error CErr.systemErrorInterpDestroyed

/-- Integers shareable through _long_shared fit the signed size range; the
other payload kinds are unrestricted. -/
def shareable_in_range : XObj → Prop
  | XObj.intV z => PY_SSIZE_T_MIN ≤ z ∧ z ≤ PY_SSIZE_T_MAX
  | _ => True

/-! Section: helper lemmas -/

lemma replaceById_eq_self (l : List WRef) (i : Nat) (n : WRef)
    (h : ∀ x ∈ l, x.id ≠ i) : replaceById l i n = l := by
  induction l with
  | nil => rfl
  | cons w rest ih =>
    simp only [replaceById, List.map_cons]
    rw [if_neg (h w (List.mem_cons_self w rest))]
    have := ih (fun x hx => h x (List.mem_cons_of_mem w hx))
    simp only [replaceById] at this
    rw [this]

/-! Section: claim C3, the non-owning-thread release path -/

/-- C3: in the free-threaded build, a release on a non-owning thread never
mutates the local counter; a shared field with count zero in state normal
or maybe-weakly-referenced is replaced by the merge-queued state and the
object is enqueued without decrementing; otherwise the shared count is
decremented by one (the field drops by four, preserving the flag bits);
and this path deallocates the object exactly when the resulting shared
field equals merged-with-count-zero. -/
theorem Py_DecRefShared_spec (o : PyObjectShared) :
    (_Py_DecRefShared o).1.ob_ref_local = o.ob_ref_local ∧
    (o.ob_ref_shared = 0 ∨ o.ob_ref_shared = _Py_REF_MAYBE_WEAKREF →
      _Py_DecRefShared o = ({ o with ob_ref_shared := _Py_REF_QUEUED }, true, false)) ∧
    (¬(o.ob_ref_shared = 0 ∨ o.ob_ref_shared = _Py_REF_MAYBE_WEAKREF) →
      _Py_DecRefShared o =
        ({ o with ob_ref_shared := o.ob_ref_shared - 4 }, false,
         decide (o.ob_ref_shared - 4 = _Py_REF_MERGED))) ∧
    ((_Py_DecRefShared o).2.2 = true ↔
      (_Py_DecRefShared o).1.ob_ref_shared = _Py_REF_MERGED) := by
  by_cases h : o.ob_ref_shared = 0 ∨ o.ob_ref_shared = _Py_REF_MAYBE_WEAKREF
  · refine ⟨?_, fun _ => ?_, fun hc => absurd h hc, ?_⟩
    · simp [_Py_DecRefShared, h]
    · simp [_Py_DecRefShared, h]
    · simp [_Py_DecRefShared, h, _Py_REF_QUEUED, _Py_REF_MERGED]
  · refine ⟨?_, fun hc => absurd hc h, fun _ => ?_, ?_⟩
    · simp [_Py_DecRefShared, h]
    · simp only [_Py_DecRefShared, if_neg h, _Py_REF_SHARED_SHIFT]
      norm_num
    · simp only [_Py_DecRefShared, if_neg h, _Py_REF_SHARED_SHIFT]
      simp [decide_eq_true_eq]

/-- Witness for C3 at a shared field equal to maybe-weakly-referenced with
count zero: the object is queued, not decremented, not deallocated. -/
theorem Py_DecRefShared_spec_witness :
    _Py_DecRefShared ⟨5, 1, 77⟩ =
      ({ ob_ref_local := 5, ob_ref_shared := _Py_REF_QUEUED, ob_tid := 77 }, true, false) :=
  (Py_DecRefShared_spec ⟨5, 1, 77⟩).2.1 (Or.inr (by decide))

/-! Section: claim C9, deleting a still-current thread state -/

/-- C9: PyThreadState_Delete on the thread state published as current is a
fatal error and performs no unlinking or freeing; on a non-current state it
completes, removing the state from the thread list of its interpreter. -/
theorem PyThreadState_Delete_spec (rt : RuntimeSt) (interp : InterpSt) (tid : Nat) :
    (tstate_is_current rt tid = true →
      PyThreadState_Delete rt interp tid = Except.error CErr.fatalStillCurrent) ∧
    (tstate_is_current rt tid = false →
      PyThreadState_Delete rt interp tid =
        Except.ok { interp with threads_head := interp.threads_head.erase tid }) := by
  unfold PyThreadState_Delete
  by_cases h : tstate_is_current rt tid
  · simp [h]
  · simp [h]

/-- Witness for C9: a runtime whose current thread state has id 3 rejects
the deletion of that state. -/
theorem PyThreadState_Delete_spec_witness :
    PyThreadState_Delete ⟨some ⟨3, 0⟩, [0], none⟩ ⟨0, [3]⟩ 3 =
      Except.error CErr.fatalStillCurrent :=
  (PyThreadState_Delete_spec ⟨some ⟨3, 0⟩, [0], none⟩ ⟨0, [3]⟩ 3).1 (by decide)

/-! Section: claim C4, deleting an interpreter with remaining threads -/

/-- Counterexample to C4: an interpreter with one remaining (non-current)
thread state is deleted successfully; the call completes instead of
fatal-erroring, zapping the leftover thread state. -/
theorem PyInterpreterState_Delete_remaining_thread_completes :
    (⟨5, [7]⟩ : InterpSt).threads_head ≠ [] ∧
    PyInterpreterState_Delete ⟨none, [5], none⟩ ⟨5, [7]⟩ =
      Except.ok (⟨none, [], none⟩, ⟨5, []⟩) := by
  constructor
  · decide
  · rfl

lemma zapthreads_loop_ok (rt : RuntimeSt) (l : List Nat)
    (h : ∀ tid ∈ l, tstate_is_current rt tid = false) :
    zapthreads_loop rt l = Except.ok () := by
  induction l with
  | nil => rfl
  | cons tid rest ih =>
    unfold zapthreads_loop
    rw [if_neg (by simp [h tid (List.mem_cons_self tid rest)])]
    exact ih (fun x hx => h x (List.mem_cons_of_mem tid hx))

lemma PyInterpreterState_Delete_body_ok (rt1 : RuntimeSt) (interp : InterpSt)
    (hmem : interp.id ∈ rt1.interp_head)
    (hmain : rt1.interp_main = some interp.id → rt1.interp_head.erase interp.id = [])
    (hnc : ∀ tid ∈ interp.threads_head, tstate_is_current rt1 tid = false) :
    ∃ rt2, PyInterpreterState_Delete_body rt1 interp =
      Except.ok (rt2, { interp with threads_head := [] }) := by
  have hz : zapthreads rt1 interp = Except.ok { interp with threads_head := [] } := by
    unfold zapthreads
    rw [zapthreads_loop_ok rt1 interp.threads_head hnc]
  unfold PyInterpreterState_Delete_body
  rw [hz]
  simp only [if_pos hmem]
  rw [if_neg (by simp)]
  by_cases hm : rt1.interp_main = some interp.id
  · rw [if_pos hm, if_neg (by simp [hmain hm])]
    exact ⟨_, rfl⟩
  · rw [if_neg hm]
    exact ⟨_, rfl⟩

/-- C4 amended: PyInterpreterState_Delete does not reject an interpreter
with remaining thread states.  After unsetting the current thread state
when it belongs to this interpreter, zapthreads deletes every remaining
thread state, so the remaining-threads fatal check never fires and the
deletion completes with the thread list empty, also when thread states
remained at the call (the only other checks, that the interpreter is in
the runtime list and that a main interpreter leaves no subinterpreters
behind, are unrelated to threads and assumed here). -/
theorem PyInterpreterState_Delete_zaps (rt : RuntimeSt) (interp : InterpSt)
    (hmem : interp.id ∈ rt.interp_head)
    (hmain : rt.interp_main = some interp.id → rt.interp_head.erase interp.id = [])
    (hcur : ∀ ts, rt.tstate_current = some ts → ts.id ∈ interp.threads_head →
      ts.interp = interp.id) :
    ∃ rt2, PyInterpreterState_Delete rt interp =
      Except.ok (rt2, { interp with threads_head := [] }) := by
  unfold PyInterpreterState_Delete
  rcases hc : rt.tstate_current with _ | ts
  · refine PyInterpreterState_Delete_body_ok rt interp hmem hmain ?_
    intro tid htid
    simp [tstate_is_current, hc]
  · by_cases hi : ts.interp = interp.id
    · simp only [if_pos hi]
      refine PyInterpreterState_Delete_body_ok _ interp hmem hmain ?_
      intro tid htid
      simp [tstate_is_current]
    · simp only [if_neg hi]
      refine PyInterpreterState_Delete_body_ok rt interp hmem hmain ?_
      intro tid htid
      simp only [tstate_is_current, hc, decide_eq_false_iff_not]
      intro hEq
      exact hi (hcur ts hc (hEq ▸ htid))

/-- Witness for the amended C4: an interpreter whose current thread state
belongs to it and which still has a thread state is deleted successfully. -/
theorem PyInterpreterState_Delete_zaps_witness :
    ∃ rt2, PyInterpreterState_Delete ⟨some ⟨7, 5⟩, [5], some 5⟩ ⟨5, [7]⟩ =
      Except.ok (rt2, { id := 5, threads_head := [] }) :=
  PyInterpreterState_Delete_zaps ⟨some ⟨7, 5⟩, [5], some 5⟩ ⟨5, [7]⟩
    (by decide) (fun _ => by decide) (fun ts hts _ => by cases hts; rfl)

/-! Section: claim C5, creating a weak reference -/

/-- Counterexample to C5: on an object that already has a callback-less
basic reference at the head of its weak list, a successful
PyWeakref_NewRef call with a callback inserts the new node after the basic
reference, not at the head of the list. -/
theorem PyWeakref_NewRef_not_at_head :
    PyWeakref_NewRef true [init_weakref 0 none] (CBArg.fn 7) 1 =
      Except.ok (init_weakref 1 (some 7),
        [init_weakref 0 none, init_weakref 1 (some 7)]) ∧
    init_weakref 0 none ≠ init_weakref 1 (some 7) := by
  constructor
  · rfl
  · decide

/-- C5 amended: PyWeakref_NewRef fails with a type error when the type of
the object does not support weak referencing; on a supporting object a
successful call returns a strong-owned handle, but the node is not always
new and not always at the head: with a NULL or None callback, an existing
callback-less reference of exactly the base reference type at the head of
the list is returned with its reference count incremented and the list is
not lengthened; in every other case a new node is created, and it is
inserted at the head of the weak list when the callback is NULL or None
(also when a callback-less proxy heads the list, which is never reused)
or when neither a basic reference nor a proxy heads the list, while a
node carrying a callback is inserted immediately after the proxy, or
after the basic reference when there is no proxy. -/
theorem PyWeakref_NewRef_spec (weaklist : List WRef) (callback : CBArg)
    (freshId : Nat) :
    (PyWeakref_NewRef false weaklist callback freshId =
      Except.error CErr.typeError) ∧
    (∀ r, cbNormalize callback = none → (get_basic_refs weaklist).1 = some r →
      PyWeakref_NewRef true weaklist callback freshId =
        Except.ok ({ r with refcnt := r.refcnt + 1 },
                   replaceById weaklist r.id { r with refcnt := r.refcnt + 1 }) ∧
      (replaceById weaklist r.id { r with refcnt := r.refcnt + 1 }).length =
        weaklist.length) ∧
    (cbNormalize callback = none → (get_basic_refs weaklist).1 = none →
      PyWeakref_NewRef true weaklist callback freshId =
        Except.ok (init_weakref freshId none,
                   init_weakref freshId none :: weaklist)) ∧
    (∀ c, cbNormalize callback = some c → (get_basic_refs weaklist).1 = none →
      (get_basic_refs weaklist).2 = none →
      PyWeakref_NewRef true weaklist callback freshId =
        Except.ok (init_weakref freshId (some c),
                   init_weakref freshId (some c) :: weaklist)) ∧
    (∀ c p, cbNormalize callback = some c →
      ((get_basic_refs weaklist).2 = some p ∨
        ((get_basic_refs weaklist).2 = none ∧
         (get_basic_refs weaklist).1 = some p)) →
      PyWeakref_NewRef true weaklist callback freshId =
        Except.ok (init_weakref freshId (some c),
                   insert_after (init_weakref freshId (some c)) p.id weaklist)) := by
  refine ⟨rfl, ?_, ?_, ?_, ?_⟩
  · intro r hcb href
    constructor
    · simp [PyWeakref_NewRef, hcb, href]
    · exact List.length_map weaklist _
  · intro hcb href
    simp [PyWeakref_NewRef, hcb, href, insert_head]
  · intro c hcb href hproxy
    simp [PyWeakref_NewRef, hcb, href, hproxy, insert_head]
  · intro c p hcb hp
    rcases hp with hp | ⟨hp2, hp1⟩
    · simp [PyWeakref_NewRef, hcb, hp]
    · simp [PyWeakref_NewRef, hcb, hp1, hp2]

/-- Witness for the amended C5: an unsupported type is rejected; with only
a callback-less proxy at the head, a callback-less request creates a fresh
node at the head instead of reusing the proxy, while a callbacked request
inserts the new node right after the proxy. -/
theorem PyWeakref_NewRef_spec_witness :
    PyWeakref_NewRef false [] (CBArg.fn 4) 2 = Except.error CErr.typeError ∧
    PyWeakref_NewRef true [⟨0, WKind.proxyKind, true, none, 1⟩] CBArg.null 2 =
      Except.ok (init_weakref 2 none,
                 init_weakref 2 none ::
                   [⟨0, WKind.proxyKind, true, none, 1⟩]) ∧
    PyWeakref_NewRef true [⟨0, WKind.proxyKind, true, none, 1⟩] (CBArg.fn 7) 3 =
      Except.ok (init_weakref 3 (some 7),
                 insert_after (init_weakref 3 (some 7)) 0
                   [⟨0, WKind.proxyKind, true, none, 1⟩]) :=
  ⟨(PyWeakref_NewRef_spec [] (CBArg.fn 4) 2).1,
   (PyWeakref_NewRef_spec [⟨0, WKind.proxyKind, true, none, 1⟩]
       CBArg.null 2).2.2.1 rfl (by decide),
   (PyWeakref_NewRef_spec [⟨0, WKind.proxyKind, true, none, 1⟩]
       (CBArg.fn 7) 3).2.2.2.2 7 ⟨0, WKind.proxyKind, true, none, 1⟩ rfl
     (Or.inl (by decide))⟩

/-! Section: claim C10, reuse of the callback-less basic reference -/

/-- C10: when a live callback-less basic reference sits at the head of the
weak list of the object, PyWeakref_NewRef with a NULL or None callback
returns that very node with its reference count incremented, without
allocating or inserting, so the length of the weak list is unchanged. -/
theorem PyWeakref_NewRef_reuses_basic (w : WRef) (rest : List WRef) (cb : CBArg)
    (freshId : Nat)
    (hcb : w.wr_callback = none) (hkind : w.kind = WKind.refExact)
    (hlive : 0 < w.refcnt)
    (harg : cb = CBArg.null ∨ cb = CBArg.pyNone)
    (hid : ∀ x ∈ rest, x.id ≠ w.id) :
    PyWeakref_NewRef true (w :: rest) cb freshId =
      Except.ok ({ w with refcnt := w.refcnt + 1 },
                 { w with refcnt := w.refcnt + 1 } :: rest) ∧
    ({ w with refcnt := w.refcnt + 1 } :: rest).length = (w :: rest).length := by
  have hnorm : cbNormalize cb = none := by
    rcases harg with h | h <;> simp [h, cbNormalize]
  have href : (get_basic_refs (w :: rest)).1 = some w := by
    rcases rest with _ | ⟨w2, rest2⟩
    · simp [get_basic_refs, hcb, PyWeakref_CheckRefExact, hkind]
    · by_cases h2 : w2.wr_callback = none ∧ PyWeakref_CheckProxy w2 = true
      · simp [get_basic_refs, hcb, PyWeakref_CheckRefExact, hkind, h2]
      · simp [get_basic_refs, hcb, PyWeakref_CheckRefExact, hkind, h2]
  constructor
  · unfold PyWeakref_NewRef
    simp only [hnorm, href]
    simp only [replaceById, List.map_cons, if_pos rfl]
    have : replaceById rest w.id { w with refcnt := w.refcnt + 1 } = rest :=
      replaceById_eq_self rest w.id _ hid
    simp only [replaceById] at this
    simp [this]
  · simp

/-- Witness for C10: reusing the basic reference of a one-element weak
list bumps its count to two and leaves the list length at one. -/
theorem PyWeakref_NewRef_reuses_basic_witness :
    PyWeakref_NewRef true [init_weakref 0 none] CBArg.null 9 =
      Except.ok ({ init_weakref 0 none with refcnt := 2 },
                 [{ init_weakref 0 none with refcnt := 2 }]) ∧
    ([{ init_weakref 0 none with refcnt := 2 }]).length =
      ([init_weakref 0 none]).length :=
  PyWeakref_NewRef_reuses_basic (init_weakref 0 none) [] CBArg.null 9
    rfl rfl (by decide) (Or.inl rfl) (fun x hx => absurd hx (List.not_mem_nil x))

/-! Section: claim C6, the cross-interpreter round trip -/

/-- C6: for each supported built-in payload kind (an in-range integer, a
byte buffer, a text buffer, the none sentinel), exporting from interpreter
a and reconstructing from a different interpreter b yields a value equal
to the original, and releasing the intermediate payload succeeds when
invoked from either interpreter. -/
theorem crossinterp_roundtrip (a b : Int) (v : XObj)
    (ha : 0 ≤ a) (hab : a ≠ b) (hv : shareable_in_range v) :
    ∃ d, _PyObject_GetCrossInterpreterData a v = Except.ok d ∧
      d.interp = a ∧
      _PyCrossInterpreterData_NewObject d = some v ∧
      (∃ d1, _PyCrossInterpreterData_Release [a, b] a d = Except.ok d1) ∧
      (∃ d2, _PyCrossInterpreterData_Release [a, b] b d = Except.ok d2) := by
  have hnn : ¬ a < 0 := not_lt.mpr ha
  rcases v with z | bs | cs | _
  · rcases hv with ⟨h1, h2⟩
    have hz : ¬(z < PY_SSIZE_T_MIN ∨ PY_SSIZE_T_MAX < z) := by
      push_neg
      exact ⟨h1, h2⟩
    refine ⟨⟨XPayload.longP z, none, a, XNewObj.newLong, false⟩, ?_, rfl, rfl,
      ⟨⟨XPayload.nullP, none, a, XNewObj.newLong, false⟩, ?_⟩,
      ⟨⟨XPayload.nullP, none, a, XNewObj.newLong, false⟩, ?_⟩⟩
    · simp only [_PyObject_GetCrossInterpreterData, _long_shared, if_neg hz]
      simp [hnn]
    · simp [_PyCrossInterpreterData_Release]
    · simp [_PyCrossInterpreterData_Release]
  · refine ⟨⟨XPayload.bytesP bs, some (XObj.bytesV bs), a, XNewObj.newBytes, true⟩,
      ?_, rfl, rfl,
      ⟨⟨XPayload.nullP, none, a, XNewObj.newBytes, true⟩, ?_⟩,
      ⟨⟨XPayload.nullP, none, a, XNewObj.newBytes, true⟩, ?_⟩⟩
    · simp [_PyObject_GetCrossInterpreterData, _bytes_shared, hnn]
    · simp [_PyCrossInterpreterData_Release]
    · simp [_PyCrossInterpreterData_Release]
  · refine ⟨⟨XPayload.strP cs, some (XObj.strV cs), a, XNewObj.newStr, true⟩,
      ?_, rfl, rfl,
      ⟨⟨XPayload.nullP, none, a, XNewObj.newStr, true⟩, ?_⟩,
      ⟨⟨XPayload.nullP, none, a, XNewObj.newStr, true⟩, ?_⟩⟩
    · simp [_PyObject_GetCrossInterpreterData, _str_shared, hnn]
    · simp [_PyCrossInterpreterData_Release]
    · simp [_PyCrossInterpreterData_Release]
  · refine ⟨⟨XPayload.nullP, none, a, XNewObj.newNone, false⟩, ?_, rfl, rfl,
      ⟨⟨XPayload.nullP, none, a, XNewObj.newNone, false⟩, ?_⟩,
      ⟨⟨XPayload.nullP, none, a, XNewObj.newNone, false⟩, ?_⟩⟩
    · simp [_PyObject_GetCrossInterpreterData, _none_shared, hnn]
    · simp [_PyCrossInterpreterData_Release]
    · simp [_PyCrossInterpreterData_Release]

/-- Witness for C6: the integer forty-two exported from interpreter zero
and reconstructed from interpreter one. -/
theorem crossinterp_roundtrip_witness :
    ∃ d, _PyObject_GetCrossInterpreterData 0 (XObj.intV 42) = Except.ok d ∧
      d.interp = 0 ∧
      _PyCrossInterpreterData_NewObject d = some (XObj.intV 42) ∧
      (∃ d1, _PyCrossInterpreterData_Release [0, 1] 0 d = Except.ok d1) ∧
      (∃ d2, _PyCrossInterpreterData_Release [0, 1] 1 d = Except.ok d2) :=
  crossinterp_roundtrip 0 1 (XObj.intV 42) (by decide) (by decide)
    (by constructor <;> decide)

/-! Section: claim C8, nested GILState ensure and release -/

lemma ensureN_held (n : Nat) : ∀ c : Nat,
    ensureN n ⟨some c, true⟩ =
      (⟨some (c + n), true⟩, List.replicate n PyGILState_STATE.locked) := by
  induction n with
  | zero => intro c; rfl
  | succ n ih =>
    intro c
    have step : PyGILState_Ensure ⟨some c, true⟩ =
        (⟨some (c + 1), true⟩, PyGILState_STATE.locked) := rfl
    simp only [ensureN, step, ih (c + 1), List.replicate_succ]
    have h1 : c + 1 + n = c + (n + 1) := by omega
    rw [h1]

lemma releaseN_append (l1 : List PyGILState_STATE) :
    ∀ (s s2 : GILThread) (l2 : List PyGILState_STATE),
    releaseN s l1 = Except.ok s2 →
    releaseN s (l1 ++ l2) = releaseN s2 l2 := by
  induction l1 with
  | nil =>
    intro s s2 l2 h
    simp only [releaseN] at h
    cases h
    rfl
  | cons st rest ih =>
    intro s s2 l2 h
    simp only [releaseN, List.cons_append] at h ⊢
    rcases hr : PyGILState_Release s st with e | s3
    · rw [hr] at h
      cases h
    · rw [hr] at h
      exact ih s3 s2 l2 h

lemma releaseN_locked (n : Nat) : ∀ c : Nat, 1 ≤ c →
    releaseN ⟨some (c + n), true⟩ (List.replicate n PyGILState_STATE.locked) =
      Except.ok ⟨some c, true⟩ := by
  induction n with
  | zero => intro c _; rfl
  | succ n ih =>
    intro c hc
    rw [List.replicate_succ]
    simp only [releaseN]
    have step : PyGILState_Release ⟨some (c + (n + 1)), true⟩ PyGILState_STATE.locked =
        Except.ok ⟨some (c + n), true⟩ := by
      simp only [PyGILState_Release]
      rw [if_neg (by simp)]
      rw [if_neg (by omega : ¬ (c + (n + 1) - 1 = 0))]
      rw [if_neg (by decide : ¬ (PyGILState_STATE.locked = PyGILState_STATE.unlocked))]
      have h3 : c + (n + 1) - 1 = c + n := by omega
      rw [h3]
    rw [step]
    exact ih c hc

/-- C8: each PyGILState_Ensure increments the per-thread-state gilstate
counter (creating the thread state on first use), each PyGILState_Release
decrements it, only the release that brings the counter to zero clears and
deletes the thread state, a sequence of n plus one nested ensure calls
matched by releases in reverse order leaves the thread with no thread
state allocated, and an unpaired release on a thread with no thread state
is rejected with a fatal error. -/
theorem gilstate_ensure_release_spec (n : Nat) (s : GILThread) (c : Nat)
    (st : PyGILState_STATE) :
    ((PyGILState_Ensure s).1.tstate = some ((s.tstate.getD 0) + 1)) ∧
    (s.tstate = some c → s.hasGil = true → c - 1 = 0 →
      PyGILState_Release s st = Except.ok ⟨none, false⟩) ∧
    (s.tstate = some c → s.hasGil = true → c - 1 ≠ 0 →
      ∃ g, PyGILState_Release s st = Except.ok g ∧ g.tstate = some (c - 1)) ∧
    (ensureN (n + 1) ⟨none, false⟩ =
      (⟨some (n + 1), true⟩,
       PyGILState_STATE.unlocked :: List.replicate n PyGILState_STATE.locked)) ∧
    (releaseN ⟨some (n + 1), true⟩
        ((PyGILState_STATE.unlocked :: List.replicate n PyGILState_STATE.locked)).reverse =
      Except.ok ⟨none, false⟩) ∧
    (PyGILState_Release ⟨none, false⟩ st = Except.error CErr.fatalNoThreadState) := by
  refine ⟨?_, ?_, ?_, ?_, ?_, rfl⟩
  · rcases hs : s.tstate with _ | c0
    · simp [PyGILState_Ensure, hs]
    · by_cases hg : s.hasGil <;> simp [PyGILState_Ensure, hs, hg]
  · intro h1 h2 h3
    simp only [PyGILState_Release, h1, h2]
    rw [if_neg (by simp), if_pos h3]
  · intro h1 h2 h3
    simp only [PyGILState_Release, h1, h2]
    rw [if_neg (by simp), if_neg h3]
    by_cases ho : st = PyGILState_STATE.unlocked
    · rw [if_pos ho]
      exact ⟨_, rfl, rfl⟩
    · rw [if_neg ho]
      exact ⟨_, rfl, rfl⟩
  · have step : PyGILState_Ensure ⟨none, false⟩ =
        (⟨some 1, true⟩, PyGILState_STATE.unlocked) := rfl
    simp only [ensureN, step, ensureN_held n 1]
    have h1 : 1 + n = n + 1 := by omega
    rw [h1]
  · rw [List.reverse_cons, List.reverse_replicate]
    have h2 : n + 1 = 1 + n := by omega
    rw [h2]
    rw [releaseN_append _ _ _ _ (releaseN_locked n 1 (le_refl 1))]
    rfl

/-- Witness for C8: two nested ensure calls from a fresh foreign thread,
released in reverse order, leave no thread state; an unpaired release is
fatal. -/
theorem gilstate_ensure_release_spec_witness :
    (ensureN 2 ⟨none, false⟩ =
      (⟨some 2, true⟩,
       [PyGILState_STATE.unlocked, PyGILState_STATE.locked])) ∧
    (releaseN ⟨some 2, true⟩
        [PyGILState_STATE.locked, PyGILState_STATE.unlocked] =
      Except.ok ⟨none, false⟩) ∧
    (PyGILState_Ensure ⟨some 1, true⟩).1.tstate = some 2 ∧
    PyGILState_Release ⟨none, false⟩ PyGILState_STATE.locked =
      Except.error CErr.fatalNoThreadState := by
  have h := gilstate_ensure_release_spec 1 ⟨some 1, true⟩ 1 PyGILState_STATE.locked
  exact ⟨h.2.2.2.1, h.2.2.2.2.1, h.1, h.2.2.2.2.2⟩

/-! Section: claims C1 and C7, clearing the weak references of a referent -/

lemma clear_weakref_id (w : WRef) : (clear_weakref w).id = w.id := rfl

lemma clear_weakref_gone (w : WRef) : _PyWeakref_GET_REF (clear_weakref w) = none := rfl

lemma clear_basic_refs_split (wl : List WRef) :
    ∃ pre, wl = pre ++ (clear_basic_refs wl).2 ∧
      (clear_basic_refs wl).1 = pre.map clear_weakref ∧
      ∀ x ∈ pre, x.wr_callback = none := by
  rcases wl with _ | ⟨w, rest⟩
  · exact ⟨[], rfl, rfl, by simp⟩
  · by_cases hw : w.wr_callback = none
    · rcases rest with _ | ⟨w2, rest2⟩
      · refine ⟨[w], ?_, ?_, ?_⟩ <;> simp [clear_basic_refs, hw]
      · by_cases hw2 : w2.wr_callback = none
        · refine ⟨[w, w2], ?_, ?_, ?_⟩ <;> simp [clear_basic_refs, hw, hw2]
        · refine ⟨[w], ?_, ?_, ?_⟩ <;> simp [clear_basic_refs, hw, hw2]
    · refine ⟨[], ?_, ?_, ?_⟩ <;> simp [clear_basic_refs, hw]

lemma handle_callback_no_unlink (raises : Nat → Bool) (cb : Nat) :
    ∀ e ∈ handle_callback raises cb, ∀ i, e ≠ WEvent.unlink i := by
  intro e he i
  unfold handle_callback at he
  by_cases hr : raises cb = true
  · rw [if_pos hr] at he
    simp only [List.mem_cons, List.not_mem_nil, or_false] at he
    rcases he with rfl | rfl <;> simp
  · rw [if_neg hr] at he
    simp only [List.mem_cons, List.not_mem_nil, or_false] at he
    subst he
    simp

lemma invoke_callbacks_no_unlink (raises : Nat → Bool)
    (l : List (Option (Nat × Option Nat))) :
    ∀ e ∈ invoke_callbacks raises l, ∀ i, e ≠ WEvent.unlink i := by
  induction l with
  | nil => simp [invoke_callbacks]
  | cons entry rest ih =>
    rcases entry with _ | ⟨wid, cbo⟩
    · simpa [invoke_callbacks] using ih
    · rcases cbo with _ | cb
      · simpa [invoke_callbacks] using ih
      · intro e he i
        simp only [invoke_callbacks, List.mem_append] at he
        rcases he with he | he
        · exact handle_callback_no_unlink raises cb e he i
        · exact ih e he i

lemma handle_callback_mem_invoke (raises : Nat → Bool) (cb : Nat) :
    WEvent.invoke cb ∈ handle_callback raises cb := by
  unfold handle_callback
  by_cases hr : raises cb = true
  · rw [if_pos hr]
    simp
  · rw [if_neg hr]
    simp

lemma handle_callback_mem_unraisable (raises : Nat → Bool) (cb : Nat)
    (hr : raises cb = true) :
    WEvent.unraisable cb ∈ handle_callback raises cb := by
  unfold handle_callback
  rw [if_pos hr]
  simp

lemma invoke_callbacks_mem_invoke (raises : Nat → Bool)
    (l : List (Option (Nat × Option Nat))) (wid cb : Nat)
    (h : some (wid, some cb) ∈ l) :
    WEvent.invoke cb ∈ invoke_callbacks raises l := by
  induction l with
  | nil => cases h
  | cons entry rest ih =>
    rcases List.mem_cons.mp h with heq | hmem
    · cases heq.symm
      simp only [invoke_callbacks, List.mem_append]
      exact Or.inl (handle_callback_mem_invoke raises cb)
    · rcases entry with _ | ⟨w2, cb2⟩
      · simpa [invoke_callbacks] using ih hmem
      · rcases cb2 with _ | c2
        · simpa [invoke_callbacks] using ih hmem
        · simp only [invoke_callbacks, List.mem_append]
          exact Or.inr (ih hmem)

lemma invoke_callbacks_mem_unraisable (raises : Nat → Bool)
    (l : List (Option (Nat × Option Nat))) (wid cb : Nat)
    (h : some (wid, some cb) ∈ l) (hr : raises cb = true) :
    WEvent.unraisable cb ∈ invoke_callbacks raises l := by
  induction l with
  | nil => cases h
  | cons entry rest ih =>
    rcases List.mem_cons.mp h with heq | hmem
    · cases heq.symm
      simp only [invoke_callbacks, List.mem_append]
      exact Or.inl (handle_callback_mem_unraisable raises cb hr)
    · rcases entry with _ | ⟨w2, cb2⟩
      · simpa [invoke_callbacks] using ih hmem
      · rcases cb2 with _ | c2
        · simpa [invoke_callbacks] using ih hmem
        · simp only [invoke_callbacks, List.mem_append]
          exact Or.inr (ih hmem)

lemma map_id_clear : ∀ l : List WRef,
    (l.map clear_weakref).map WRef.id = l.map WRef.id
  | [] => rfl
  | w :: rest => by simp [map_id_clear rest, clear_weakref]

lemma map_id_clear_strip : ∀ l : List WRef,
    (l.map (fun w => clear_weakref { w with wr_callback := none })).map WRef.id =
      l.map WRef.id
  | [] => rfl
  | w :: rest => by simp [map_id_clear_strip rest, clear_weakref]

lemma map_unlink_clear : ∀ l : List WRef,
    (l.map clear_weakref).map (fun w => WEvent.unlink w.id) =
      l.map (fun w => WEvent.unlink w.id)
  | [] => rfl
  | w :: rest => by simp [map_unlink_clear rest, clear_weakref]

/-- C1: at the zero-refcount transition of a supporting referent,
PyObject_ClearWeakRefs unlinks every node of the weak list, in list order,
before any callback is invoked; afterwards the weak list of the referent
is empty and every one of the K weak references reports gone on
dereference; and with K equal to zero the call changes nothing. -/
theorem PyObject_ClearWeakRefs_spec (raises : Nat → Bool) (err : Option CErr)
    (wl : List WRef) :
    (PyObject_ClearWeakRefs true 0 raises err wl).2.1 = [] ∧
    (PyObject_ClearWeakRefs true 0 raises err wl).1.map WRef.id = wl.map WRef.id ∧
    (∀ w ∈ (PyObject_ClearWeakRefs true 0 raises err wl).1,
      _PyWeakref_GET_REF w = none) ∧
    (∃ tail, (PyObject_ClearWeakRefs true 0 raises err wl).2.2.1 =
        wl.map (fun w => WEvent.unlink w.id) ++ tail ∧
        ∀ e ∈ tail, ∀ i, e ≠ WEvent.unlink i) ∧
    (wl = [] → PyObject_ClearWeakRefs true 0 raises err wl = ([], [], [], err)) := by
  obtain ⟨pre, hsplit, hca, hcb⟩ := clear_basic_refs_split wl
  rcases hp : clear_basic_refs wl with ⟨ca, rest⟩
  rw [hp] at hsplit hca
  simp only at hsplit hca
  have hguard : ¬(true = false ∨ (0 : Nat) ≠ 0) := by simp
  rcases rest with _ | ⟨current, others⟩
  · -- the weak list held only the basic refs
    simp only [PyObject_ClearWeakRefs, if_neg hguard, hp]
    subst hca
    refine ⟨by simp, ?_, ?_, ⟨[], ?_, by simp⟩, ?_⟩
    · rw [map_id_clear, hsplit]
      simp
    · intro w hw
      rcases List.mem_map.mp hw with ⟨x, _, rfl⟩
      exact clear_weakref_gone x
    · rw [map_unlink_clear, hsplit]
      simp
    · intro hnil
      subst hnil
      have hpre : pre = [] := by simpa using hsplit.symm
      subst hpre
      rfl
  · rcases others with _ | ⟨o2, os⟩
    · -- exactly one non-basic reference
      simp only [PyObject_ClearWeakRefs, if_neg hguard, hp]
      subst hca
      refine ⟨by simp, ?_, ?_, ?_, ?_⟩
      · rw [hsplit]
        simp only [List.map_append]
        rw [map_id_clear]
        simp [clear_weakref]
      · intro w hw
        rcases List.mem_append.mp hw with hw | hw
        · rcases List.mem_map.mp hw with ⟨x, _, rfl⟩
          exact clear_weakref_gone x
        · simp only [List.mem_singleton] at hw
          subst hw
          exact clear_weakref_gone _
      · refine ⟨(match current.wr_callback with
          | none => []
          | some cb => if 0 < current.refcnt then handle_callback raises cb else []), ?_, ?_⟩
        · rw [hsplit]
          simp only [List.map_append]
          rw [map_unlink_clear]
          simp [clear_weakref]
        · rcases hcur : current.wr_callback with _ | cb
          · simp
          · by_cases hrc : 0 < current.refcnt
            · simp only [if_pos hrc]
              exact handle_callback_no_unlink raises cb
            · simp [if_neg hrc]
      · intro hnil
        rw [hsplit] at hnil
        simp at hnil
    · -- two or more remaining references
      simp only [PyObject_ClearWeakRefs, if_neg hguard, hp]
      subst hca
      refine ⟨by simp, ?_, ?_, ?_, ?_⟩
      · rw [hsplit]
        simp only [List.map_append]
        rw [map_id_clear]
        have h2 := map_id_clear_strip (current :: o2 :: os)
        simp only [List.map_cons] at h2 ⊢
        rw [h2]
      · intro w hw
        rcases List.mem_append.mp hw with hw | hw
        · rcases List.mem_map.mp hw with ⟨x, _, rfl⟩
          exact clear_weakref_gone x
        · rcases List.mem_map.mp hw with ⟨x, _, rfl⟩
          exact clear_weakref_gone _
      · refine ⟨invoke_callbacks raises ((current :: o2 :: os).map (fun w =>
          if 0 < w.refcnt then some (w.id, w.wr_callback) else none)), ?_, ?_⟩
        · rw [hsplit]
          simp only [List.map_append]
          rw [map_unlink_clear]
        · exact invoke_callbacks_no_unlink raises _
      · intro hnil
        rw [hsplit] at hnil
        simp at hnil

/-- Witness for C1: with an empty weak list the call changes nothing. -/
theorem PyObject_ClearWeakRefs_spec_witness :
    PyObject_ClearWeakRefs true 0 (fun _ => false) (some CErr.typeError) [] =
      ([], [], [], some CErr.typeError) :=
  (PyObject_ClearWeakRefs_spec (fun _ => false) (some CErr.typeError) []).2.2.2.2 rfl

/-- C7: a weak-reference callback that raises during
PyObject_ClearWeakRefs is reported through the unraisable channel and
swallowed: whatever the raising behaviour of the callbacks, every live
sibling callback is still invoked, every raising live callback is
reported, every weak reference is still cleared, and the pending exception
from before the call is restored on exit. -/
theorem PyObject_ClearWeakRefs_callback_spec (raises : Nat → Bool)
    (err : Option CErr) (wl : List WRef) :
    ((PyObject_ClearWeakRefs true 0 raises err wl).2.2.2 = err) ∧
    (∀ w ∈ wl, 0 < w.refcnt → ∀ cb, w.wr_callback = some cb →
      WEvent.invoke cb ∈ (PyObject_ClearWeakRefs true 0 raises err wl).2.2.1) ∧
    (∀ w ∈ wl, 0 < w.refcnt → ∀ cb, w.wr_callback = some cb → raises cb = true →
      WEvent.unraisable cb ∈ (PyObject_ClearWeakRefs true 0 raises err wl).2.2.1) ∧
    (∀ w ∈ (PyObject_ClearWeakRefs true 0 raises err wl).1,
      _PyWeakref_GET_REF w = none) := by
  obtain ⟨pre, hsplit, hca, hcb⟩ := clear_basic_refs_split wl
  rcases hp : clear_basic_refs wl with ⟨ca, rest⟩
  rw [hp] at hsplit hca
  simp only at hsplit hca
  have hguard : ¬(true = false ∨ (0 : Nat) ≠ 0) := by simp
  have hmem_rest : ∀ w ∈ wl, ∀ cb : Nat, w.wr_callback = some cb → w ∈ rest := by
    intro w hw cb hwcb
    rw [hsplit] at hw
    rcases List.mem_append.mp hw with hw | hw
    · rw [hcb w hw] at hwcb
      cases hwcb
    · exact hw
  rcases rest with _ | ⟨current, others⟩
  · simp only [PyObject_ClearWeakRefs, if_neg hguard, hp]
    subst hca
    refine ⟨by simp, ?_, ?_, ?_⟩
    · intro w hw _ cb hwcb
      cases hmem_rest w hw cb hwcb
    · intro w hw _ cb hwcb _
      cases hmem_rest w hw cb hwcb
    · intro w hw
      rcases List.mem_map.mp hw with ⟨x, _, rfl⟩
      exact clear_weakref_gone x
  · rcases others with _ | ⟨o2, os⟩
    · simp only [PyObject_ClearWeakRefs, if_neg hguard, hp]
      subst hca
      refine ⟨by simp, ?_, ?_, ?_⟩
      · intro w hw hrc cb hwcb
        have hwr := hmem_rest w hw cb hwcb
        simp only [List.mem_singleton] at hwr
        subst hwr
        simp only [List.mem_append]
        refine Or.inr ?_
        show WEvent.invoke cb ∈ (match w.wr_callback with
          | none => ([] : List WEvent)
          | some cb => if 0 < w.refcnt then handle_callback raises cb else [])
        rw [hwcb]
        simp only [if_pos hrc]
        exact handle_callback_mem_invoke raises cb
      · intro w hw hrc cb hwcb hr
        have hwr := hmem_rest w hw cb hwcb
        simp only [List.mem_singleton] at hwr
        subst hwr
        simp only [List.mem_append]
        refine Or.inr ?_
        show WEvent.unraisable cb ∈ (match w.wr_callback with
          | none => ([] : List WEvent)
          | some cb => if 0 < w.refcnt then handle_callback raises cb else [])
        rw [hwcb]
        simp only [if_pos hrc]
        exact handle_callback_mem_unraisable raises cb hr
      · intro w hw
        rcases List.mem_append.mp hw with hw | hw
        · rcases List.mem_map.mp hw with ⟨x, _, rfl⟩
          exact clear_weakref_gone x
        · simp only [List.mem_singleton] at hw
          subst hw
          exact clear_weakref_gone _
    · simp only [PyObject_ClearWeakRefs, if_neg hguard, hp]
      subst hca
      refine ⟨by simp, ?_, ?_, ?_⟩
      · intro w hw hrc cb hwcb
        have hwr := hmem_rest w hw cb hwcb
        have htup : some (w.id, some cb) ∈ (current :: o2 :: os).map (fun w =>
            if 0 < w.refcnt then some (w.id, w.wr_callback) else none) :=
          List.mem_map.mpr ⟨w, hwr, by simp [hrc, hwcb]⟩
        simp only [List.mem_append]
        exact Or.inr (invoke_callbacks_mem_invoke raises _ w.id cb htup)
      · intro w hw hrc cb hwcb hr
        have hwr := hmem_rest w hw cb hwcb
        have htup : some (w.id, some cb) ∈ (current :: o2 :: os).map (fun w =>
            if 0 < w.refcnt then some (w.id, w.wr_callback) else none) :=
          List.mem_map.mpr ⟨w, hwr, by simp [hrc, hwcb]⟩
        simp only [List.mem_append]
        exact Or.inr (invoke_callbacks_mem_unraisable raises _ w.id cb htup hr)
      · intro w hw
        rcases List.mem_append.mp hw with hw | hw
        · rcases List.mem_map.mp hw with ⟨x, _, rfl⟩
          exact clear_weakref_gone x
        · rcases List.mem_map.mp hw with ⟨x, _, rfl⟩
          exact clear_weakref_gone _

/-- Witness for C7: two callbacked weak references where the first
callback raises; the second callback is still invoked, the raise is
reported as unraisable, and the pending exception survives. -/
theorem PyObject_ClearWeakRefs_callback_spec_witness :
    WEvent.invoke 4 ∈ (PyObject_ClearWeakRefs true 0 (fun n => n = 9)
      (some CErr.overflowError)
      [init_weakref 1 (some 9), init_weakref 2 (some 4)]).2.2.1 ∧
    WEvent.unraisable 9 ∈ (PyObject_ClearWeakRefs true 0 (fun n => n = 9)
      (some CErr.overflowError)
      [init_weakref 1 (some 9), init_weakref 2 (some 4)]).2.2.1 ∧
    (PyObject_ClearWeakRefs true 0 (fun n => n = 9) (some CErr.overflowError)
      [init_weakref 1 (some 9), init_weakref 2 (some 4)]).2.2.2 =
      some CErr.overflowError := by
  have h := PyObject_ClearWeakRefs_callback_spec (fun n => n = 9)
    (some CErr.overflowError) [init_weakref 1 (some 9), init_weakref 2 (some 4)]
  refine ⟨?_, ?_, h.1⟩
  · exact h.2.1 (init_weakref 2 (some 4)) (by simp) (by decide) 4 rfl
  · exact h.2.2.1 (init_weakref 1 (some 9)) (by simp) (by decide) 9 rfl (by decide)

/-! Section: claim C2, the trashcan guard -/

lemma some_triple_eq (a1 a2 : Nat) (l1 l2 : List Nat) (b1 b2 c1 c2 : Nat)
    (ha : a1 = a2) (hl : l1 = l2) (hb : b1 = b2) (hc : c1 = c2) :
    (some (⟨a1, l1⟩, b1, c1) : Option (Trashcan × Nat × Nat)) =
      some (⟨a2, l2⟩, b2, c2) := by
  subst ha
  subst hl
  subst hb
  subst hc
  rfl

lemma dealloc_nested : ∀ fuel op : Nat, ∀ t : Trashcan,
    1 ≤ t.delete_nesting → t.delete_nesting ≤ 50 → 1 ≤ op →
    op + 2 ≤ fuel →
    dealloc fuel op t =
      some ({ delete_nesting := t.delete_nesting,
              delete_later :=
                if op ≤ 50 - t.delete_nesting then t.delete_later
                else (op - (50 - t.delete_nesting)) :: t.delete_later },
            min (t.delete_nesting + op) 50,
            min op (50 - t.delete_nesting)) := by
  intro fuel
  induction fuel with
  | zero =>
    intro op t _ _ _ hf
    omega
  | succ fuel ih =>
    intro op t h1 h50 hop hf
    obtain ⟨nu, L⟩ := t
    simp only at h1 h50 ⊢
    by_cases hnu : 50 ≤ nu
    · have hnu50 : nu = 50 := by omega
      subst hnu50
      have hbegin : _PyTrash_begin ⟨50, L⟩ op = (⟨50, op :: L⟩, true) := by
        simp [_PyTrash_begin, _PyTrash_thread_deposit_object, _PyTrash_UNWIND_LEVEL]
      simp only [dealloc, hbegin]
      refine some_triple_eq _ _ _ _ _ _ _ _ rfl ?_ ?_ ?_
      · rw [if_neg (show ¬ (op ≤ 50 - 50) by omega)]
        congr 1 <;> omega
      · omega
      · omega
    · have hbegin : _PyTrash_begin ⟨nu, L⟩ op = (⟨nu + 1, L⟩, false) := by
        simp only [_PyTrash_begin]
        rw [if_neg (by simpa [_PyTrash_UNWIND_LEVEL] using hnu)]
      simp only [dealloc, hbegin]
      obtain ⟨f2, rfl⟩ : ∃ k, fuel = k + 1 := ⟨fuel - 1, by omega⟩
      by_cases hop1 : op ≤ 1
      · have hop11 : op = 1 := by omega
        subst hop11
        rw [if_pos (by omega)]
        have hend : _PyTrash_end (f2 + 1) ⟨nu + 1, L⟩ = some (⟨nu, L⟩, 0, 0) := by
          simp only [_PyTrash_end]
          rw [if_neg (show ¬ (nu + 1 - 1 = 0) by omega)]
          exact some_triple_eq _ _ _ _ _ _ _ _ (by omega) rfl rfl rfl
        simp only [hend]
        refine some_triple_eq _ _ _ _ _ _ _ _ rfl ?_ ?_ ?_
        · rw [if_pos (show (1 : Nat) ≤ 50 - nu by omega)]
        · simp
          omega
        · omega
      · rw [if_neg hop1]
        rw [ih (op - 1) ⟨nu + 1, L⟩ (by simp) (by simp; omega) (by omega) (by omega)]
        have hend : _PyTrash_end (f2 + 1)
            ⟨nu + 1, if op - 1 ≤ 50 - (nu + 1) then L
                     else (op - 1 - (50 - (nu + 1))) :: L⟩ =
            some (⟨nu, if op - 1 ≤ 50 - (nu + 1) then L
                       else (op - 1 - (50 - (nu + 1))) :: L⟩, 0, 0) := by
          simp only [_PyTrash_end]
          rw [if_neg (show ¬ (nu + 1 - 1 = 0) by omega)]
          exact some_triple_eq _ _ _ _ _ _ _ _ (by omega) rfl rfl rfl
        simp only [hend]
        refine some_triple_eq _ _ _ _ _ _ _ _ rfl ?_ ?_ ?_
        · split_ifs with hA hB hB
          · rfl
          · omega
          · omega
          · congr 1 <;> omega
        · simp
          omega
        · omega

lemma destroy_loop_drains : ∀ S fuel : Nat, ∀ t : Trashcan,
    t.delete_nesting = 1 → (∀ x ∈ t.delete_later, 1 ≤ x) →
    t.delete_later.sum ≤ S → 5 * S + 5 ≤ fuel →
    ∃ m, destroy_loop fuel t = some (⟨1, []⟩, m, t.delete_later.sum) ∧
      m ≤ 50 := by
  intro S
  induction S with
  | zero =>
    intro fuel t h1 hall hsum hf
    obtain ⟨nu, L⟩ := t
    simp only at h1 hall hsum
    subst h1
    have hL : L = [] := by
      cases L with
      | nil => rfl
      | cons x xs =>
        exfalso
        have hx := hall x (List.mem_cons_self x xs)
        have : x + xs.sum ≤ 0 := by simpa using hsum
        omega
    subst hL
    obtain ⟨f2, rfl⟩ : ∃ k, fuel = k + 1 := ⟨fuel - 1, by omega⟩
    exact ⟨1, by simp [destroy_loop], by omega⟩
  | succ S ih =>
    intro fuel t h1 hall hsum hf
    obtain ⟨nu, L⟩ := t
    simp only at h1 hall hsum
    subst h1
    cases L with
    | nil =>
      obtain ⟨f2, rfl⟩ : ∃ k, fuel = k + 1 := ⟨fuel - 1, by omega⟩
      exact ⟨1, by simp [destroy_loop], by omega⟩
    | cons op rest =>
      obtain ⟨f2, rfl⟩ : ∃ k, fuel = k + 1 := ⟨fuel - 1, by omega⟩
      have hop : 1 ≤ op := hall op (List.mem_cons_self op rest)
      have hrest : ∀ x ∈ rest, 1 ≤ x :=
        fun x hx => hall x (List.mem_cons_of_mem op hx)
      have hsum1 : op + rest.sum ≤ S + 1 := by simpa using hsum
      have hde := dealloc_nested f2 op ⟨1, rest⟩ (by simp) (by simp)
        hop (by omega)
      simp only at hde
      simp only [destroy_loop, hde]
      have hall2 : ∀ x ∈ (if op ≤ 50 - 1 then rest
          else (op - (50 - 1)) :: rest), 1 ≤ x := by
        split_ifs with hA
        · exact hrest
        · intro x hx
          rcases List.mem_cons.mp hx with rfl | hx
          · omega
          · exact hrest x hx
      have hsum2 : (if op ≤ 50 - 1 then rest
          else (op - (50 - 1)) :: rest).sum ≤ S := by
        split_ifs with hA
        · omega
        · simp only [List.sum_cons]
          omega
      obtain ⟨m3, hloop, hm3⟩ := ih f2 ⟨1, (if op ≤ 50 - 1 then rest
          else (op - (50 - 1)) :: rest)⟩ rfl hall2 hsum2 (by omega)
      simp only at hloop
      simp only [hloop]
      refine ⟨max (min (1 + op) 50) m3, ?_, by omega⟩
      refine some_triple_eq _ _ _ _ _ _ _ _ rfl rfl rfl ?_
      simp only [List.sum_cons]
      split_ifs at * with hA
      · omega
      · simp only [List.sum_cons] at *
        omega

lemma trash_end_one (fuel : Nat) (L2 : List Nat) :
    _PyTrash_end (fuel + 1) ⟨1, L2⟩ =
      if L2 = [] then some (⟨0, L2⟩, 0, 0)
      else _PyTrash_thread_destroy_chain fuel ⟨0, L2⟩ := by
  rfl

lemma dealloc_succ_run (fuel op : Nat) (t t1 t2 t3 : Trashcan)
    (m2 f2 m3 f3 : Nat)
    (hbegin : _PyTrash_begin t op = (t1, false))
    (hbody : (if op ≤ 1 then some (t1, 0, 0)
        else dealloc fuel (op - 1) t1) = some (t2, m2, f2))
    (hend : _PyTrash_end fuel t2 = some (t3, m3, f3)) :
    dealloc (fuel + 1) op t =
      some (t3, max t1.delete_nesting (max m2 m3), 1 + f2 + f3) := by
  have h0 : dealloc (fuel + 1) op t =
      (match _PyTrash_begin t op with
       | (t1, true) => some (t1, t1.delete_nesting, 0)
       | (t1, false) =>
         match (if op ≤ 1 then some (t1, 0, 0)
             else dealloc fuel (op - 1) t1) with
         | none => none
         | some (t2, m2, f2) =>
           match _PyTrash_end fuel t2 with
           | none => none
           | some (t3, m3, f3) =>
             some (t3, max t1.delete_nesting (max m2 m3), 1 + f2 + f3)) := rfl
  rw [h0, hbegin]
  show (match (if op ≤ 1 then some (t1, 0, 0)
      else dealloc fuel (op - 1) t1 : Option (Trashcan × Nat × Nat)) with
    | none => none
    | some (t2, m2, f2) =>
      match _PyTrash_end fuel t2 with
      | none => none
      | some (t3, m3, f3) =>
        some (t3, max t1.delete_nesting (max m2 m3), 1 + f2 + f3)) = _
  rw [hbody]
  show (match _PyTrash_end fuel t2 with
    | none => none
    | some (t3, m3, f3) =>
      some (t3, max t1.delete_nesting (max m2 m3), 1 + f2 + f3)) = _
  rw [hend]

lemma destroy_chain_succ (fuel : Nat) (t t2 : Trashcan) (m f : Nat)
    (hloop : destroy_loop fuel
      { t with delete_nesting := t.delete_nesting + 1 } = some (t2, m, f)) :
    _PyTrash_thread_destroy_chain (fuel + 1) t =
      some ({ t2 with delete_nesting := t2.delete_nesting - 1 }, m, f) := by
  have h0 : _PyTrash_thread_destroy_chain (fuel + 1) t =
      (match destroy_loop fuel
          { t with delete_nesting := t.delete_nesting + 1 } with
       | none => none
       | some (t2, m, f) =>
         some ({ t2 with delete_nesting := t2.delete_nesting - 1 }, m, f)) := rfl
  rw [h0, hloop]

/-- C2: the trashcan nesting counter never exceeds the threshold of fifty:
a call to _PyTrash_begin with the counter at or above the threshold
deposits the refcount-zero object on the deferred list of the thread and
reports 1 so the destructor body is skipped, any other call increments the
counter and reports 0; and destroying a reference chain of any length L
completes with every one of the L objects destroyed, the deferred list
drained (by the loop of _PyTrash_thread_destroy_chain once nesting returns
to zero), and the nesting counter never above the threshold during the
whole execution, independently of L. -/
theorem trashcan_spec (L : Nat) (hL : 1 ≤ L) :
    (∀ (t : Trashcan) (op : Nat), _PyTrash_UNWIND_LEVEL ≤ t.delete_nesting →
      _PyTrash_begin t op =
        ({ t with delete_later := op :: t.delete_later }, true)) ∧
    (∀ (t : Trashcan) (op : Nat), t.delete_nesting < _PyTrash_UNWIND_LEVEL →
      _PyTrash_begin t op =
        ({ t with delete_nesting := t.delete_nesting + 1 }, false)) ∧
    (∃ fuel m, dealloc fuel L ⟨0, []⟩ = some (⟨0, []⟩, m, L) ∧
      m ≤ _PyTrash_UNWIND_LEVEL) := by
  refine ⟨?_, ?_, ?_⟩
  · intro t op h
    unfold _PyTrash_begin
    rw [if_pos h]
    rfl
  · intro t op h
    unfold _PyTrash_begin
    rw [if_neg (not_le.mpr h)]
  · have hUL : _PyTrash_UNWIND_LEVEL = 50 := rfl
    rw [hUL]
    have hbegin : _PyTrash_begin ⟨0, []⟩ L = (⟨1, []⟩, false) := by
      simp only [_PyTrash_begin]
      rw [if_neg (by simp [_PyTrash_UNWIND_LEVEL])]
    by_cases hL1 : L ≤ 1
    · have hL11 : L = 1 := by omega
      subst hL11
      exact ⟨25, 1, by decide, by omega⟩
    · obtain ⟨k, hk⟩ : ∃ k, 5 * L + 18 = k := ⟨5 * L + 18, rfl⟩
      refine ⟨k + 1 + 1, ?_⟩
      by_cases hsm : L - 1 ≤ 50 - 1
      · have hbody : (if L ≤ 1 then some ((⟨1, []⟩ : Trashcan), 0, 0)
            else dealloc (k + 1) (L - 1) ⟨1, []⟩) =
            some (⟨1, []⟩, min (1 + (L - 1)) 50, min (L - 1) (50 - 1)) := by
          rw [if_neg hL1, dealloc_nested (k + 1) (L - 1) ⟨1, []⟩ (by simp)
            (by simp) (by omega) (by omega)]
          simp only
          rw [if_pos hsm]
        have hend : _PyTrash_end (k + 1) ⟨1, []⟩ = some (⟨0, []⟩, 0, 0) := by
          rw [trash_end_one, if_pos rfl]
        rw [dealloc_succ_run (k + 1) L ⟨0, []⟩ ⟨1, []⟩ ⟨1, []⟩ ⟨0, []⟩
          _ _ _ _ hbegin hbody hend]
        exact ⟨max 1 (max (min (1 + (L - 1)) 50) 0),
          some_triple_eq _ _ _ _ _ _ _ _ rfl rfl rfl (by omega), by omega⟩
      · obtain ⟨k2, hk2⟩ : ∃ k2, k = k2 + 1 := ⟨k - 1, by omega⟩
        obtain ⟨m3, hloop, hm3⟩ := destroy_loop_drains (L - 50) k2
          ⟨1, [L - 1 - (50 - 1)]⟩ rfl
          (by
            intro x hx
            simp only [List.mem_singleton] at hx
            subst hx
            omega)
          (by simp; omega)
          (by omega)
        simp only at hloop
        have hchain := destroy_chain_succ k2 ⟨0, [L - 1 - (50 - 1)]⟩ ⟨1, []⟩
          m3 (([L - 1 - (50 - 1)] : List Nat).sum) hloop
        have hbody : (if L ≤ 1 then some ((⟨1, []⟩ : Trashcan), 0, 0)
            else dealloc (k + 1) (L - 1) ⟨1, []⟩) =
            some (⟨1, [L - 1 - (50 - 1)]⟩, min (1 + (L - 1)) 50,
              min (L - 1) (50 - 1)) := by
          rw [if_neg hL1, dealloc_nested (k + 1) (L - 1) ⟨1, []⟩ (by simp)
            (by simp) (by omega) (by omega)]
          simp only
          rw [if_neg hsm]
        have hend : _PyTrash_end (k + 1) ⟨1, [L - 1 - (50 - 1)]⟩ =
            some (⟨0, []⟩, m3, ([L - 1 - (50 - 1)] : List Nat).sum) := by
          rw [trash_end_one, if_neg (by simp), hk2, hchain]
          rfl
        rw [dealloc_succ_run (k + 1) L ⟨0, []⟩ ⟨1, []⟩
          ⟨1, [L - 1 - (50 - 1)]⟩ ⟨0, []⟩ _ _ _ _ hbegin hbody hend]
        refine ⟨max 1 (max (min (1 + (L - 1)) 50) m3),
          some_triple_eq _ _ _ _ _ _ _ _ rfl rfl rfl ?_, by omega⟩
        simp only [List.sum_cons, List.sum_nil]
        omega

/-- Witness for C2: a chain of one hundred thirty-seven objects is fully
destroyed with the nesting counter bounded by the threshold, and a
trashcan state at the threshold defers instead of recursing. -/
theorem trashcan_spec_witness :
    (∃ fuel m, dealloc fuel 137 ⟨0, []⟩ = some (⟨0, []⟩, m, 137) ∧
      m ≤ _PyTrash_UNWIND_LEVEL) ∧
    _PyTrash_begin ⟨50, [4]⟩ 9 = (⟨50, [9, 4]⟩, true) := by
  have h := trashcan_spec 137 (by omega)
  exact ⟨h.2.2, h.1 ⟨50, [4]⟩ 9 (by decide)⟩
